import Mathlib

set_option maxRecDepth 8192

/-
Verification of core/vm/sqlvm/errors/errors.go (package errors).

The file defines an Error record with ABI fields (Position, Length,
Category, Code) and debug fields (Token, Prefix, Message), two closed
enumerations ErrorCategory / ErrorCode whose constants are numbered by Go
iota, two fixed-size keyed name arrays, and rendering methods.

Modelling decisions, each traceable to the Go source or to documented Go
semantics:
  * uint32 / uint16 fields are modelled as Nat; rendering only reads them,
    no arithmetic is performed on them.
  * Go iota numbering is modelled as the position of the constant name in
    its const block, transcribed in source order.
  * The keyed array literals `[...]string{K: "v", ...}` are modelled by
    `keyedStringArray`: length = largest key + 1, unkeyed slots hold the
    zero value "".
  * `errorCategoryMap[c]` / `errorCodeMap[c]` panic when `c` is out of
    bounds; the lookup methods therefore return `Option String`, `none`
    standing for the index-out-of-range panic.
  * `Error.Error` formats the category/code names through `fmt.Sprintf`
    with the `%s` verb.  Package fmt recovers a panic raised inside an
    `Error() string` method and prints a `%!s(PANIC=...)` marker instead
    (documented behavior of package fmt), so `Error.Error` itself is total.
  * `strconv.Quote` is modelled by `goQuote`.  `unicode.IsPrint` is table
    driven in Go; it is modelled here as false exactly for the Unicode
    control characters (C0 controls, DEL, C1 controls).  Go additionally
    escapes a few other non-graphic runes, which only turns some raw runes
    into escaped ones and does not affect the properties proved here.
-/

namespace DexonErrors

/-- Go iota: a constant declared in a const block receives its position in
the block. -/
def iotaValue (block : List String) (name : String) : Nat :=
  block.indexOf name

/-- The ErrorCategory const block of errors.go, names in source order. -/
def errorCategoryConstBlock : List String :=
  ["ErrorCategoryNil",
   "ErrorCategoryLimit",
   "ErrorCategoryGrammar",
   "ErrorCategorySemantic",
   "ErrorCategoryRuntime"]

def ErrorCategoryNil : Nat := iotaValue errorCategoryConstBlock "ErrorCategoryNil"

def ErrorCategoryLimit : Nat := iotaValue errorCategoryConstBlock "ErrorCategoryLimit"

def ErrorCategoryGrammar : Nat := iotaValue errorCategoryConstBlock "ErrorCategoryGrammar"

def ErrorCategorySemantic : Nat := iotaValue errorCategoryConstBlock "ErrorCategorySemantic"

def ErrorCategoryRuntime : Nat := iotaValue errorCategoryConstBlock "ErrorCategoryRuntime"

/-- The ErrorCode const block of errors.go, names in source order. -/
def errorCodeConstBlock : List String :=
  ["ErrorCodeNil",
   "ErrorCodeDepthLimitReached",
   "ErrorCodeParser",
   "ErrorCodeInvalidIntegerSyntax",
   "ErrorCodeInvalidNumberSyntax",
   "ErrorCodeIntegerOutOfRange",
   "ErrorCodeNumberOutOfRange",
   "ErrorCodeFractionalPartTooLong",
   "ErrorCodeEscapeSequenceTooShort",
   "ErrorCodeInvalidUnicodeCodePoint",
   "ErrorCodeUnknownEscapeSequence",
   "ErrorCodeInvalidBytesSize",
   "ErrorCodeInvalidIntSize",
   "ErrorCodeInvalidUintSize",
   "ErrorCodeInvalidFixedSize",
   "ErrorCodeInvalidUfixedSize",
   "ErrorCodeInvalidFixedFractionalDigits",
   "ErrorCodeInvalidUfixedFractionalDigits",
   "ErrorCodeInvalidDataType",
   "ErrorCodeOverflow",
   "ErrorCodeUnderflow",
   "ErrorCodeIndexOutOfRange",
   "ErrorCodeInvalidCastType",
   "ErrorCodeDividedByZero"]

def ErrorCodeNil : Nat := iotaValue errorCodeConstBlock "ErrorCodeNil"

def ErrorCodeDepthLimitReached : Nat := iotaValue errorCodeConstBlock "ErrorCodeDepthLimitReached"

def ErrorCodeParser : Nat := iotaValue errorCodeConstBlock "ErrorCodeParser"

def ErrorCodeInvalidIntegerSyntax : Nat := iotaValue errorCodeConstBlock "ErrorCodeInvalidIntegerSyntax"

def ErrorCodeInvalidNumberSyntax : Nat := iotaValue errorCodeConstBlock "ErrorCodeInvalidNumberSyntax"

def ErrorCodeIntegerOutOfRange : Nat := iotaValue errorCodeConstBlock "ErrorCodeIntegerOutOfRange"

def ErrorCodeNumberOutOfRange : Nat := iotaValue errorCodeConstBlock "ErrorCodeNumberOutOfRange"

def ErrorCodeFractionalPartTooLong : Nat := iotaValue errorCodeConstBlock "ErrorCodeFractionalPartTooLong"

def ErrorCodeEscapeSequenceTooShort : Nat := iotaValue errorCodeConstBlock "ErrorCodeEscapeSequenceTooShort"

def ErrorCodeInvalidUnicodeCodePoint : Nat := iotaValue errorCodeConstBlock "ErrorCodeInvalidUnicodeCodePoint"

def ErrorCodeUnknownEscapeSequence : Nat := iotaValue errorCodeConstBlock "ErrorCodeUnknownEscapeSequence"

def ErrorCodeInvalidBytesSize : Nat := iotaValue errorCodeConstBlock "ErrorCodeInvalidBytesSize"

def ErrorCodeInvalidIntSize : Nat := iotaValue errorCodeConstBlock "ErrorCodeInvalidIntSize"

def ErrorCodeInvalidUintSize : Nat := iotaValue errorCodeConstBlock "ErrorCodeInvalidUintSize"

def ErrorCodeInvalidFixedSize : Nat := iotaValue errorCodeConstBlock "ErrorCodeInvalidFixedSize"

def ErrorCodeInvalidUfixedSize : Nat := iotaValue errorCodeConstBlock "ErrorCodeInvalidUfixedSize"

def ErrorCodeInvalidFixedFractionalDigits : Nat := iotaValue errorCodeConstBlock "ErrorCodeInvalidFixedFractionalDigits"

def ErrorCodeInvalidUfixedFractionalDigits : Nat := iotaValue errorCodeConstBlock "ErrorCodeInvalidUfixedFractionalDigits"

def ErrorCodeInvalidDataType : Nat := iotaValue errorCodeConstBlock "ErrorCodeInvalidDataType"

def ErrorCodeOverflow : Nat := iotaValue errorCodeConstBlock "ErrorCodeOverflow"

def ErrorCodeUnderflow : Nat := iotaValue errorCodeConstBlock "ErrorCodeUnderflow"

def ErrorCodeIndexOutOfRange : Nat := iotaValue errorCodeConstBlock "ErrorCodeIndexOutOfRange"

def ErrorCodeInvalidCastType : Nat := iotaValue errorCodeConstBlock "ErrorCodeInvalidCastType"

def ErrorCodeDividedByZero : Nat := iotaValue errorCodeConstBlock "ErrorCodeDividedByZero"

/-- A Go keyed array literal `[...]string{k: v, ...}`: its length is the
largest key plus one (0 when empty) and slots without a key hold the string
zero value "". -/
def keyedStringArray (entries : List (Nat × String)) : List String :=
  if entries.isEmpty then []
  else
    (List.range ((entries.map Prod.fst).foldl max 0 + 1)).map
      (fun i => ((entries.lookup i).getD ""))

/-- errorCategoryMap of errors.go. -/
def errorCategoryMap : List String :=
  keyedStringArray
    [(ErrorCategoryLimit, "limit"),
     (ErrorCategoryGrammar, "grammar"),
     (ErrorCategorySemantic, "semantic"),
     (ErrorCategoryRuntime, "runtime")]

/-- `func (c ErrorCategory) Error() string`: indexes errorCategoryMap;
`none` models the index-out-of-range panic for `c` beyond the array. -/
def ErrorCategory.Error (c : Nat) : Option String :=
  errorCategoryMap[c]?

/-- errorCodeMap of errors.go. -/
def errorCodeMap : List String :=
  keyedStringArray
    [(ErrorCodeDepthLimitReached, "depth limit reached"),
     (ErrorCodeParser, "parser error"),
     (ErrorCodeInvalidIntegerSyntax, "invalid integer syntax"),
     (ErrorCodeInvalidNumberSyntax, "invalid number syntax"),
     (ErrorCodeIntegerOutOfRange, "integer out of range"),
     (ErrorCodeNumberOutOfRange, "number out of range"),
     (ErrorCodeFractionalPartTooLong, "fractional part too long"),
     (ErrorCodeEscapeSequenceTooShort, "escape sequence too short"),
     (ErrorCodeInvalidUnicodeCodePoint, "invalid unicode code point"),
     (ErrorCodeUnknownEscapeSequence, "unknown escape sequence"),
     (ErrorCodeInvalidBytesSize, "invalid bytes size"),
     (ErrorCodeInvalidIntSize, "invalid int size"),
     (ErrorCodeInvalidUintSize, "invalid uint size"),
     (ErrorCodeInvalidFixedSize, "invalid fixed size"),
     (ErrorCodeInvalidUfixedSize, "invalid ufixed size"),
     (ErrorCodeInvalidFixedFractionalDigits, "invalid fixed fractional digits"),
     (ErrorCodeInvalidUfixedFractionalDigits, "invalid ufixed fractional digits"),
     (ErrorCodeInvalidDataType, "invalid data type"),
     (ErrorCodeOverflow, "overflow"),
     (ErrorCodeUnderflow, "underflow"),
     (ErrorCodeIndexOutOfRange, "index out of range"),
     (ErrorCodeInvalidCastType, "invalid cast type"),
     (ErrorCodeDividedByZero, "divide by zero")]

/-- `func (c ErrorCode) Error() string`: indexes errorCodeMap; `none`
models the index-out-of-range panic for `c` beyond the array. -/
def ErrorCode.Error (c : Nat) : Option String :=
  errorCodeMap[c]?

/-- The Error struct of errors.go.  Position and Length are uint32,
Category and Code are uint16; all are modelled as Nat.  The Go debug field
following Token is renamed Pfx here. -/
structure Error where
  Position : Nat
  Length : Nat
  Category : Nat
  Code : Nat
  Token : String
  Pfx : String
  Message : String
deriving DecidableEq

/-- Message of the Go runtime panic raised by an out-of-bounds index. -/
def indexOutOfRangeMsg (i len : Nat) : String :=
  "runtime error: index out of range [" ++ toString i ++ "] with length " ++ toString len

/-- The fmt `%s` verb applied to a value whose `Error() string` method may
panic: package fmt recovers such a panic and prints a `%!s(PANIC=...)`
marker in place of the operand (documented behavior of package fmt). -/
def fmtSVerb (lookup : Option String) (panicMsg : String) : String :=
  match lookup with
  | some s => s
  | none => "%!s(PANIC=Error method: " ++ panicMsg ++ ")"

/-- Hex digit characters 0-9a-f used by strconv quoting. -/
def lowerHexDigit (n : Nat) : Char :=
  if n < 10 then Char.ofNat (48 + n) else Char.ofNat (97 + (n - 10))

/-- unicode.IsPrint, modelled as: every rune except the Unicode control
characters (C0 controls 0x00-0x1f, DEL 0x7f, C1 controls 0x80-0x9f) is
printable.  The Go table additionally rejects a few non-graphic runes,
which only escapes more runes and affects none of the proved properties. -/
def goIsPrint (c : Char) : Bool :=
  0x20 ≤ c.toNat && c.toNat ≠ 0x7f && !(0x80 ≤ c.toNat && c.toNat ≤ 0x9f)

/-- One rune of strconv.Quote: quote and backslash get a backslash escape;
printable runes are copied; the named control escapes, then `\x` for the
remaining one-byte runes, `\u` below 0x10000, `\U` above.  (Lean Char is
always a valid rune, so the invalid-rune branch of the source cannot
arise.) -/
def escapeRune (c : Char) : List Char :=
  if c = '"' ∨ c = '\\' then ['\\', c]
  else if goIsPrint c then [c]
  else if c.toNat = 7 then ['\\', 'a']
  else if c.toNat = 8 then ['\\', 'b']
  else if c.toNat = 12 then ['\\', 'f']
  else if c.toNat = 10 then ['\\', 'n']
  else if c.toNat = 13 then ['\\', 'r']
  else if c.toNat = 9 then ['\\', 't']
  else if c.toNat = 11 then ['\\', 'v']
  else if c.toNat < 0x20 ∨ c.toNat = 0x7f then
    ['\\', 'x', lowerHexDigit (c.toNat / 16), lowerHexDigit (c.toNat % 16)]
  else if c.toNat < 0x10000 then
    ['\\', 'u',
     lowerHexDigit (c.toNat / 4096 % 16), lowerHexDigit (c.toNat / 256 % 16),
     lowerHexDigit (c.toNat / 16 % 16), lowerHexDigit (c.toNat % 16)]
  else
    ['\\', 'U',
     lowerHexDigit (c.toNat / 268435456 % 16), lowerHexDigit (c.toNat / 16777216 % 16),
     lowerHexDigit (c.toNat / 1048576 % 16), lowerHexDigit (c.toNat / 65536 % 16),
     lowerHexDigit (c.toNat / 4096 % 16), lowerHexDigit (c.toNat / 256 % 16),
     lowerHexDigit (c.toNat / 16 % 16), lowerHexDigit (c.toNat % 16)]

/-- strconv.Quote: a double-quoted Go string literal with every rune
escaped by escapeRune. -/
def goQuote (s : String) : String :=
  String.mk ('"' :: ((s.data.map escapeRune).flatten ++ ['"']))

/-- `func (e Error) Error() string`: the successive strings.Builder writes
of the source, in order. -/
def Error.Error (e : Error) : String :=
  let b := ""
  let b :=
    if 0 < e.Position ∨ 0 < e.Length then
      let b := b ++ ("offset " ++ toString e.Position)
      if 0 < e.Length then b ++ (", length " ++ toString e.Length) else b
    else b ++ "unknown location"
  let b := b ++ (", category " ++ toString e.Category ++ " (" ++
    fmtSVerb (ErrorCategory.Error e.Category)
      (indexOutOfRangeMsg e.Category errorCategoryMap.length) ++
    "), code " ++ toString e.Code ++ " (" ++
    fmtSVerb (ErrorCode.Error e.Code)
      (indexOutOfRangeMsg e.Code errorCodeMap.length) ++ ")")
  let b := if e.Token ≠ "" then b ++ ", token " ++ goQuote e.Token else b
  let b := if e.Pfx ≠ "" then b ++ ", hint " ++ goQuote e.Pfx else b
  let b := if e.Message ≠ "" then b ++ ", message: " ++ e.Message else b
  b

/-- Body of the ErrorList loop: the builder receives a line break before
every element whose index is positive, then the element's rendering. -/
def listStep (b : String) (p : Nat × Error) : String :=
  (if 0 < p.1 then b.push '\n' else b) ++ p.2.Error

/-- `func (e ErrorList) Error() string`: the loop writes a line break
before every element except the one at index 0. -/
def ErrorList.Error (l : List Error) : String :=
  l.enum.foldl listStep ""

/-! Clause views of the rendering, used to state the format claims.  Each
names one contiguous piece of the builder output of `Error.Error`. -/

/-- The location clause: `offset <Position>` with an optional
`, length <Length>`, or `unknown location` when both are zero. -/
def locPart (e : Error) : String :=
  if 0 < e.Position ∨ 0 < e.Length then
    ("offset " ++ toString e.Position) ++
      (if 0 < e.Length then ", length " ++ toString e.Length else "")
  else "unknown location"

/-- The always-present category/code clause. -/
def midPart (e : Error) : String :=
  ", category " ++ toString e.Category ++ " (" ++
    fmtSVerb (ErrorCategory.Error e.Category)
      (indexOutOfRangeMsg e.Category errorCategoryMap.length) ++
    "), code " ++ toString e.Code ++ " (" ++
    fmtSVerb (ErrorCode.Error e.Code)
      (indexOutOfRangeMsg e.Code errorCodeMap.length) ++ ")"

/-- The token clause, present exactly when Token is nonempty. -/
def tokPart (e : Error) : String :=
  if e.Token ≠ "" then ", token " ++ goQuote e.Token else ""

/-- The hint clause, present exactly when the debug cause field
is nonempty. -/
def hintPart (e : Error) : String :=
  if e.Pfx ≠ "" then ", hint " ++ goQuote e.Pfx else ""

/-- The message clause, present exactly when Message is nonempty. -/
def msgPart (e : Error) : String :=
  if e.Message ≠ "" then ", message: " ++ e.Message else ""

/-- Joining step of a list rendering once past index 0. -/
def sepStep (b : String) (x : Error) : String :=
  b ++ "\n" ++ Error.Error x

/-- The location clause as the specification words it: if Position>0 or
Length>0, `offset <Position>` followed by `, length <Length>` exactly when
Length>0; otherwise `unknown location`. -/
def specLocationClause (e : Error) : String :=
  if 0 < e.Position ∨ 0 < e.Length then
    "offset " ++ toString e.Position ++
      (if 0 < e.Length then ", length " ++ toString e.Length else "")
  else "unknown location"

/-- Value of a lowercase hexadecimal digit character. -/
def hexVal (c : Char) : Option Nat :=
  if 48 ≤ c.toNat ∧ c.toNat ≤ 57 then some (c.toNat - 48)
  else if 97 ≤ c.toNat ∧ c.toNat ≤ 102 then some (c.toNat - 87)
  else none

/-- One escape unit following a backslash: the decoded character and the
remaining input, or none for a malformed escape. -/
def splitEsc : List Char → Option (Char × List Char)
  | '\\' :: t => some ('\\', t)
  | '"' :: t => some ('"', t)
  | 'a' :: t => some (Char.ofNat 7, t)
  | 'b' :: t => some (Char.ofNat 8, t)
  | 'f' :: t => some (Char.ofNat 12, t)
  | 'n' :: t => some (Char.ofNat 10, t)
  | 'r' :: t => some (Char.ofNat 13, t)
  | 't' :: t => some (Char.ofNat 9, t)
  | 'v' :: t => some (Char.ofNat 11, t)
  | 'x' :: h1 :: h2 :: t =>
    (hexVal h1).bind fun a =>
    (hexVal h2).bind fun b =>
    some (Char.ofNat (16 * a + b), t)
  | 'u' :: h1 :: h2 :: h3 :: h4 :: t =>
    (hexVal h1).bind fun a =>
    (hexVal h2).bind fun b =>
    (hexVal h3).bind fun a2 =>
    (hexVal h4).bind fun b2 =>
    some (Char.ofNat (4096 * a + 256 * b + 16 * a2 + b2), t)
  | 'U' :: h1 :: h2 :: h3 :: h4 :: h5 :: h6 :: h7 :: h8 :: t =>
    (hexVal h1).bind fun a =>
    (hexVal h2).bind fun b =>
    (hexVal h3).bind fun a2 =>
    (hexVal h4).bind fun b2 =>
    (hexVal h5).bind fun a3 =>
    (hexVal h6).bind fun b3 =>
    (hexVal h7).bind fun a4 =>
    (hexVal h8).bind fun b4 =>
    some (Char.ofNat (268435456 * a + 16777216 * b + 1048576 * a2 +
      65536 * b2 + 4096 * a3 + 256 * b3 + 16 * a4 + b4), t)
  | _ => none

/-- Fuel-indexed decoder for the body of a quoted literal: undoes one
backslash escape or raw character per unit of fuel.  Each decoded
character consumes at least one input character, so an input-length fuel
is always sufficient. -/
def decBodyAux : Nat → List Char → Option (List Char)
  | _, [] => some []
  | 0, _ :: _ => none
  | fuel + 1, c :: rest =>
    if c = '\\' then
      match splitEsc rest with
      | some (d, t) => (decBodyAux fuel t).map (fun l => d :: l)
      | none => none
    else (decBodyAux fuel rest).map (fun l => c :: l)
  termination_by structural fuel l => fuel

/-- Decoder for the body of a quoted literal produced by goQuote: undoes
the backslash escapes; a malformed body yields none.  It witnesses that
the quoted form is decodable, hence unambiguous. -/
def decBody (l : List Char) : Option (List Char) :=
  decBodyAux l.length l

/-- Strips the surrounding double quotes and decodes the body. -/
def goUnquote (q : String) : Option String :=
  match q.data with
  | '"' :: rest =>
    match rest.reverse with
    | '"' :: midRev => (decBody midRev.reverse).map String.mk
    | _ => none
  | _ => none

/-- A Unicode control character: a C0 control, DEL, or a C1 control. -/
def isGoControl (c : Char) : Prop :=
  c.toNat < 32 ∨ c.toNat = 127 ∨ (128 ≤ c.toNat ∧ c.toNat ≤ 159)

instance (c : Char) : Decidable (isGoControl c) := by
  unfold isGoControl
  infer_instance

/-! ## Helper lemmas -/

/-- The sequential builder writes of `Error.Error` split into the five
clause pieces. -/
theorem error_render_decomp (e : Error) :
    Error.Error e =
      locPart e ++ (midPart e ++ (tokPart e ++ (hintPart e ++ msgPart e))) := by
  simp only [Error.Error, locPart, midPart, tokPart, hintPart, msgPart]
  split_ifs <;>
    simp only [String.append_assoc, String.empty_append, String.append_empty]

/-- Writing a line break byte is appending the one-character string. -/
theorem push_newline (s : String) : s.push '\n' = s ++ "\n" :=
  String.ext (by simp [String.data_push])

theorem listStep_pos (b : String) (n : Nat) (x : Error) :
    listStep b (n + 1, x) = sepStep b x := by
  simp [listStep, sepStep, push_newline]

theorem foldl_listStep_enumFrom (l : List Error) :
    ∀ (n : Nat) (b : String),
      (List.enumFrom (n + 1) l).foldl listStep b = l.foldl sepStep b := by
  induction l with
  | nil => intro n b; rfl
  | cons x xs ih =>
    intro n b
    simp only [List.enumFrom_cons, List.foldl_cons, listStep_pos]
    exact ih (n + 1) _

theorem foldl_sepStep_prefix (l : List Error) :
    ∀ (a b : String), l.foldl sepStep (a ++ b) = a ++ l.foldl sepStep b := by
  induction l with
  | nil => intro a b; rfl
  | cons x xs ih =>
    intro a b
    simp only [List.foldl_cons]
    have h : sepStep (a ++ b) x = a ++ sepStep b x := by
      simp only [sepStep, String.append_assoc]
    rw [h, ih]

theorem errorList_cons (x : Error) (xs : List Error) :
    ErrorList.Error (x :: xs) = xs.foldl sepStep (Error.Error x) := by
  show (List.enumFrom 0 (x :: xs)).foldl listStep "" = _
  simp only [List.enumFrom_cons, List.foldl_cons]
  have h0 : listStep "" (0, x) = Error.Error x := by
    simp [listStep]
  rw [h0, foldl_listStep_enumFrom]

/-- A hex-digit lookup inverts the hex digit table. -/
theorem hexVal_lowerHexDigit : ∀ n < 16, hexVal (lowerHexDigit n) = some n := by
  decide

/-- Every Lean Char is a Unicode scalar value below 0x110000. -/
theorem char_toNat_lt (c : Char) : c.toNat < 1114112 := by
  show c.val.toNat < 1114112
  rcases c.valid with h | ⟨h1, h2⟩ <;> omega

/-- Decoding a raw (non-backslash) character. -/
theorem decBodyAux_raw (fuel : Nat) (c : Char) (t : List Char)
    (h : ¬ c = '\\') :
    decBodyAux (fuel + 1) (c :: t) =
      (decBodyAux fuel t).map (fun l => c :: l) := by
  rw [show decBodyAux (fuel + 1) (c :: t) =
        (if c = '\\' then
          match splitEsc t with
          | some (d, t2) => (decBodyAux fuel t2).map (fun l => d :: l)
          | none => none
        else (decBodyAux fuel t).map (fun l => c :: l)) from rfl,
      if_neg h]

/-- Decoding a two-digit hex escape. -/
theorem decBodyAux_x (fuel : Nat) (d1 d2 : Char) (t : List Char) :
    decBodyAux (fuel + 1) ('\\' :: 'x' :: d1 :: d2 :: t) =
      ((hexVal d1).bind fun a =>
       (hexVal d2).bind fun b =>
       (decBodyAux fuel t).map (fun l => Char.ofNat (16 * a + b) :: l)) := by
  rw [show decBodyAux (fuel + 1) ('\\' :: 'x' :: d1 :: d2 :: t) =
        (match splitEsc ('x' :: d1 :: d2 :: t) with
         | some (d, t2) => (decBodyAux fuel t2).map (fun l => d :: l)
         | none => none) from rfl,
      show splitEsc ('x' :: d1 :: d2 :: t) =
        ((hexVal d1).bind fun a =>
         (hexVal d2).bind fun b =>
         some (Char.ofNat (16 * a + b), t)) from rfl]
  rcases hexVal d1 with _ | a
  · rfl
  rcases hexVal d2 with _ | b
  · rfl
  · rfl

/-- Decoding a four-digit hex escape. -/
theorem decBodyAux_u (fuel : Nat) (d1 d2 d3 d4 : Char) (t : List Char) :
    decBodyAux (fuel + 1) ('\\' :: 'u' :: d1 :: d2 :: d3 :: d4 :: t) =
      ((hexVal d1).bind fun a =>
       (hexVal d2).bind fun b =>
       (hexVal d3).bind fun a2 =>
       (hexVal d4).bind fun b2 =>
       (decBodyAux fuel t).map (fun l =>
         Char.ofNat (4096 * a + 256 * b + 16 * a2 + b2) :: l)) := by
  rw [show decBodyAux (fuel + 1) ('\\' :: 'u' :: d1 :: d2 :: d3 :: d4 :: t) =
        (match splitEsc ('u' :: d1 :: d2 :: d3 :: d4 :: t) with
         | some (d, t2) => (decBodyAux fuel t2).map (fun l => d :: l)
         | none => none) from rfl,
      show splitEsc ('u' :: d1 :: d2 :: d3 :: d4 :: t) =
        ((hexVal d1).bind fun a =>
         (hexVal d2).bind fun b =>
         (hexVal d3).bind fun a2 =>
         (hexVal d4).bind fun b2 =>
         some (Char.ofNat (4096 * a + 256 * b + 16 * a2 + b2), t)) from rfl]
  rcases hexVal d1 with _ | a
  · rfl
  rcases hexVal d2 with _ | b
  · rfl
  rcases hexVal d3 with _ | a2
  · rfl
  rcases hexVal d4 with _ | b2
  · rfl
  · rfl

/-- Decoding an eight-digit hex escape. -/
theorem decBodyAux_bigU (fuel : Nat) (d1 d2 d3 d4 d5 d6 d7 d8 : Char)
    (t : List Char) :
    decBodyAux (fuel + 1)
        ('\\' :: 'U' :: d1 :: d2 :: d3 :: d4 :: d5 :: d6 :: d7 :: d8 :: t) =
      ((hexVal d1).bind fun a =>
       (hexVal d2).bind fun b =>
       (hexVal d3).bind fun a2 =>
       (hexVal d4).bind fun b2 =>
       (hexVal d5).bind fun a3 =>
       (hexVal d6).bind fun b3 =>
       (hexVal d7).bind fun a4 =>
       (hexVal d8).bind fun b4 =>
       (decBodyAux fuel t).map (fun l =>
         Char.ofNat (268435456 * a + 16777216 * b + 1048576 * a2 +
           65536 * b2 + 4096 * a3 + 256 * b3 + 16 * a4 + b4) :: l)) := by
  rw [show decBodyAux (fuel + 1)
        ('\\' :: 'U' :: d1 :: d2 :: d3 :: d4 :: d5 :: d6 :: d7 :: d8 :: t) =
        (match splitEsc ('U' :: d1 :: d2 :: d3 :: d4 :: d5 :: d6 :: d7 :: d8 :: t) with
         | some (d, t2) => (decBodyAux fuel t2).map (fun l => d :: l)
         | none => none) from rfl,
      show splitEsc ('U' :: d1 :: d2 :: d3 :: d4 :: d5 :: d6 :: d7 :: d8 :: t) =
        ((hexVal d1).bind fun a =>
         (hexVal d2).bind fun b =>
         (hexVal d3).bind fun a2 =>
         (hexVal d4).bind fun b2 =>
         (hexVal d5).bind fun a3 =>
         (hexVal d6).bind fun b3 =>
         (hexVal d7).bind fun a4 =>
         (hexVal d8).bind fun b4 =>
         some (Char.ofNat (268435456 * a + 16777216 * b + 1048576 * a2 +
           65536 * b2 + 4096 * a3 + 256 * b3 + 16 * a4 + b4), t)) from rfl]
  rcases hexVal d1 with _ | a
  · rfl
  rcases hexVal d2 with _ | b
  · rfl
  rcases hexVal d3 with _ | a2
  · rfl
  rcases hexVal d4 with _ | b2
  · rfl
  rcases hexVal d5 with _ | a3
  · rfl
  rcases hexVal d6 with _ | b3
  · rfl
  rcases hexVal d7 with _ | a4
  · rfl
  rcases hexVal d8 with _ | b4
  · rfl
  · rfl

/-- Decoding inverts the escaping of a single rune, whatever follows. -/
theorem decBodyAux_escapeRune (c : Char) (t : List Char) (fuel : Nat) :
    decBodyAux (fuel + 1) (escapeRune c ++ t) =
      (decBodyAux fuel t).map (fun l => c :: l) := by
  by_cases hq : c = '"' ∨ c = '\\'
  case pos =>
    have he : escapeRune c = ['\\', c] := by
      unfold escapeRune; rw [if_pos hq]
    rw [he]
    rcases hq with h | h <;> subst h <;> rfl
  by_cases hp : goIsPrint c = true
  case pos =>
    have he : escapeRune c = [c] := by
      unfold escapeRune; rw [if_neg hq, if_pos hp]
    rw [he]
    exact decBodyAux_raw fuel c t (fun h => hq (Or.inr h))
  by_cases h7 : c.toNat = 7
  case pos =>
    have he : escapeRune c = ['\\', 'a'] := by
      unfold escapeRune; rw [if_neg hq, if_neg hp, if_pos h7]
    rw [he]
    have hc : c = Char.ofNat 7 := by rw [← h7, Char.ofNat_toNat]
    subst hc; rfl
  by_cases h8 : c.toNat = 8
  case pos =>
    have he : escapeRune c = ['\\', 'b'] := by
      unfold escapeRune; rw [if_neg hq, if_neg hp, if_neg h7, if_pos h8]
    rw [he]
    have hc : c = Char.ofNat 8 := by rw [← h8, Char.ofNat_toNat]
    subst hc; rfl
  by_cases h12 : c.toNat = 12
  case pos =>
    have he : escapeRune c = ['\\', 'f'] := by
      unfold escapeRune
      rw [if_neg hq, if_neg hp, if_neg h7, if_neg h8, if_pos h12]
    rw [he]
    have hc : c = Char.ofNat 12 := by rw [← h12, Char.ofNat_toNat]
    subst hc; rfl
  by_cases h10 : c.toNat = 10
  case pos =>
    have he : escapeRune c = ['\\', 'n'] := by
      unfold escapeRune
      rw [if_neg hq, if_neg hp, if_neg h7, if_neg h8, if_neg h12, if_pos h10]
    rw [he]
    have hc : c = Char.ofNat 10 := by rw [← h10, Char.ofNat_toNat]
    subst hc; rfl
  by_cases h13 : c.toNat = 13
  case pos =>
    have he : escapeRune c = ['\\', 'r'] := by
      unfold escapeRune
      rw [if_neg hq, if_neg hp, if_neg h7, if_neg h8, if_neg h12, if_neg h10,
          if_pos h13]
    rw [he]
    have hc : c = Char.ofNat 13 := by rw [← h13, Char.ofNat_toNat]
    subst hc; rfl
  by_cases h9 : c.toNat = 9
  case pos =>
    have he : escapeRune c = ['\\', 't'] := by
      unfold escapeRune
      rw [if_neg hq, if_neg hp, if_neg h7, if_neg h8, if_neg h12, if_neg h10,
          if_neg h13, if_pos h9]
    rw [he]
    have hc : c = Char.ofNat 9 := by rw [← h9, Char.ofNat_toNat]
    subst hc; rfl
  by_cases h11 : c.toNat = 11
  case pos =>
    have he : escapeRune c = ['\\', 'v'] := by
      unfold escapeRune
      rw [if_neg hq, if_neg hp, if_neg h7, if_neg h8, if_neg h12, if_neg h10,
          if_neg h13, if_neg h9, if_pos h11]
    rw [he]
    have hc : c = Char.ofNat 11 := by rw [← h11, Char.ofNat_toNat]
    subst hc; rfl
  by_cases hx : c.toNat < 32 ∨ c.toNat = 127
  case pos =>
    have he : escapeRune c =
        ['\\', 'x', lowerHexDigit (c.toNat / 16), lowerHexDigit (c.toNat % 16)] := by
      unfold escapeRune
      rw [if_neg hq, if_neg hp, if_neg h7, if_neg h8, if_neg h12, if_neg h10,
          if_neg h13, if_neg h9, if_neg h11, if_pos hx]
    rw [he]
    have b1 : c.toNat / 16 < 16 := by omega
    have b2 : c.toNat % 16 < 16 := Nat.mod_lt _ (by omega)
    simp only [List.cons_append, List.nil_append]
    rw [decBodyAux_x, hexVal_lowerHexDigit _ b1, hexVal_lowerHexDigit _ b2]
    show (decBodyAux fuel t).map
        (fun l => Char.ofNat (16 * (c.toNat / 16) + c.toNat % 16) :: l) = _
    rw [show 16 * (c.toNat / 16) + c.toNat % 16 = c.toNat from
          Nat.div_add_mod c.toNat 16,
        Char.ofNat_toNat]
  by_cases hu : c.toNat < 65536
  case pos =>
    have he : escapeRune c =
        ['\\', 'u',
         lowerHexDigit (c.toNat / 4096 % 16), lowerHexDigit (c.toNat / 256 % 16),
         lowerHexDigit (c.toNat / 16 % 16), lowerHexDigit (c.toNat % 16)] := by
      unfold escapeRune
      rw [if_neg hq, if_neg hp, if_neg h7, if_neg h8, if_neg h12, if_neg h10,
          if_neg h13, if_neg h9, if_neg h11, if_neg hx, if_pos hu]
    rw [he]
    have b1 : c.toNat / 4096 % 16 < 16 := Nat.mod_lt _ (by omega)
    have b2 : c.toNat / 256 % 16 < 16 := Nat.mod_lt _ (by omega)
    have b3 : c.toNat / 16 % 16 < 16 := Nat.mod_lt _ (by omega)
    have b4 : c.toNat % 16 < 16 := Nat.mod_lt _ (by omega)
    simp only [List.cons_append, List.nil_append]
    rw [decBodyAux_u, hexVal_lowerHexDigit _ b1, hexVal_lowerHexDigit _ b2,
        hexVal_lowerHexDigit _ b3, hexVal_lowerHexDigit _ b4]
    show (decBodyAux fuel t).map
        (fun l => Char.ofNat (4096 * (c.toNat / 4096 % 16) +
          256 * (c.toNat / 256 % 16) + 16 * (c.toNat / 16 % 16) +
          c.toNat % 16) :: l) = _
    rw [show 4096 * (c.toNat / 4096 % 16) + 256 * (c.toNat / 256 % 16) +
          16 * (c.toNat / 16 % 16) + c.toNat % 16 = c.toNat by omega,
        Char.ofNat_toNat]
  case neg =>
    have he : escapeRune c =
        ['\\', 'U',
         lowerHexDigit (c.toNat / 268435456 % 16),
         lowerHexDigit (c.toNat / 16777216 % 16),
         lowerHexDigit (c.toNat / 1048576 % 16),
         lowerHexDigit (c.toNat / 65536 % 16),
         lowerHexDigit (c.toNat / 4096 % 16), lowerHexDigit (c.toNat / 256 % 16),
         lowerHexDigit (c.toNat / 16 % 16), lowerHexDigit (c.toNat % 16)] := by
      unfold escapeRune
      rw [if_neg hq, if_neg hp, if_neg h7, if_neg h8, if_neg h12, if_neg h10,
          if_neg h13, if_neg h9, if_neg h11, if_neg hx, if_neg hu]
    rw [he]
    have hv := char_toNat_lt c
    have b1 : c.toNat / 268435456 % 16 < 16 := Nat.mod_lt _ (by omega)
    have b2 : c.toNat / 16777216 % 16 < 16 := Nat.mod_lt _ (by omega)
    have b3 : c.toNat / 1048576 % 16 < 16 := Nat.mod_lt _ (by omega)
    have b4 : c.toNat / 65536 % 16 < 16 := Nat.mod_lt _ (by omega)
    have b5 : c.toNat / 4096 % 16 < 16 := Nat.mod_lt _ (by omega)
    have b6 : c.toNat / 256 % 16 < 16 := Nat.mod_lt _ (by omega)
    have b7 : c.toNat / 16 % 16 < 16 := Nat.mod_lt _ (by omega)
    have b8 : c.toNat % 16 < 16 := Nat.mod_lt _ (by omega)
    simp only [List.cons_append, List.nil_append]
    rw [decBodyAux_bigU, hexVal_lowerHexDigit _ b1, hexVal_lowerHexDigit _ b2,
        hexVal_lowerHexDigit _ b3, hexVal_lowerHexDigit _ b4,
        hexVal_lowerHexDigit _ b5, hexVal_lowerHexDigit _ b6,
        hexVal_lowerHexDigit _ b7, hexVal_lowerHexDigit _ b8]
    show (decBodyAux fuel t).map
        (fun l => Char.ofNat (268435456 * (c.toNat / 268435456 % 16) +
          16777216 * (c.toNat / 16777216 % 16) +
          1048576 * (c.toNat / 1048576 % 16) + 65536 * (c.toNat / 65536 % 16) +
          4096 * (c.toNat / 4096 % 16) + 256 * (c.toNat / 256 % 16) +
          16 * (c.toNat / 16 % 16) + c.toNat % 16) :: l) = _
    rw [show 268435456 * (c.toNat / 268435456 % 16) +
          16777216 * (c.toNat / 16777216 % 16) +
          1048576 * (c.toNat / 1048576 % 16) + 65536 * (c.toNat / 65536 % 16) +
          4096 * (c.toNat / 4096 % 16) + 256 * (c.toNat / 256 % 16) +
          16 * (c.toNat / 16 % 16) + c.toNat % 16 = c.toNat by omega,
        Char.ofNat_toNat]

/-- Decoding inverts the escaping of a whole rune sequence, given fuel at
least the number of runes. -/
theorem decBodyAux_flatten :
    ∀ (l : List Char) (fuel : Nat), l.length ≤ fuel →
      decBodyAux fuel ((l.map escapeRune).flatten) = some l := by
  intro l
  induction l with
  | nil =>
    intro fuel _
    cases fuel <;> rfl
  | cons c cs ih =>
    intro fuel hf
    cases fuel with
    | zero => simp at hf
    | succ f =>
      simp only [List.map_cons, List.flatten_cons]
      rw [decBodyAux_escapeRune, ih f (by simpa using hf)]
      rfl

/-- An escaped rune is never empty. -/
theorem escapeRune_ne_nil (c : Char) : escapeRune c ≠ [] := by
  intro h
  have h1 := decBodyAux_flatten [c] 1 (by simp)
  rw [List.map_cons, List.map_nil, h, List.flatten_cons, List.flatten_nil,
      List.nil_append] at h1
  simp [decBodyAux] at h1

/-- The escaped body is at least as long as the rune sequence. -/
theorem length_le_flatten_length (l : List Char) :
    l.length ≤ ((l.map escapeRune).flatten).length := by
  induction l with
  | nil => simp
  | cons c cs ih =>
    simp only [List.map_cons, List.flatten_cons, List.length_append,
      List.length_cons]
    have h := List.length_pos.mpr (escapeRune_ne_nil c)
    omega

/-- Unquoting inverts quoting: the quoted form is unambiguous. -/
theorem goQuote_roundtrip (s : String) : goUnquote (goQuote s) = some s := by
  have hdata : (goQuote s).data =
      '"' :: ((s.data.map escapeRune).flatten ++ ['"']) := rfl
  unfold goUnquote
  rw [hdata]
  simp only [List.reverse_append, List.reverse_cons, List.reverse_nil,
    List.nil_append, List.cons_append, List.reverse_reverse]
  rw [show decBody ((s.data.map escapeRune).flatten) =
        decBodyAux ((s.data.map escapeRune).flatten).length
          ((s.data.map escapeRune).flatten) from rfl,
      decBodyAux_flatten s.data _ (length_le_flatten_length s.data)]
  rfl

/-- Hex digit characters are not control characters. -/
theorem lowerHexDigit_not_control : ∀ n < 16, ¬ isGoControl (lowerHexDigit n) := by
  decide

/-- The characters emitted for a named or backslash escape are printable. -/
theorem escape_chars_not_control :
    ¬ isGoControl '\\' ∧ ¬ isGoControl '"' ∧ ¬ isGoControl 'a' ∧
    ¬ isGoControl 'b' ∧ ¬ isGoControl 'f' ∧ ¬ isGoControl 'n' ∧
    ¬ isGoControl 'r' ∧ ¬ isGoControl 't' ∧ ¬ isGoControl 'v' ∧
    ¬ isGoControl 'x' ∧ ¬ isGoControl 'u' ∧ ¬ isGoControl 'U' := by
  decide

/-- Every character an escaped rune emits is printable. -/
theorem escapeRune_not_control (c : Char) :
    ∀ d ∈ escapeRune c, ¬ isGoControl d := by
  intro d hd
  by_cases hq : c = '"' ∨ c = '\\'
  case pos =>
    rw [show escapeRune c = ['\\', c] by unfold escapeRune; rw [if_pos hq]] at hd
    simp only [List.mem_cons, List.not_mem_nil, or_false] at hd
    rcases hd with rfl | rfl
    · decide
    · rcases hq with h | h <;> subst h <;> decide
  by_cases hp : goIsPrint c = true
  case pos =>
    rw [show escapeRune c = [c] by
          unfold escapeRune; rw [if_neg hq, if_pos hp]] at hd
    simp only [List.mem_singleton] at hd
    subst hd
    simp only [goIsPrint, Bool.and_eq_true, decide_eq_true_eq,
      Bool.not_eq_true', Bool.and_eq_false_iff, decide_eq_false_iff_not,
      not_and, not_le] at hp
    simp only [isGoControl]
    omega
  by_cases h7 : c.toNat = 7
  case pos =>
    rw [show escapeRune c = ['\\', 'a'] by
          unfold escapeRune; rw [if_neg hq, if_neg hp, if_pos h7]] at hd
    simp only [List.mem_cons, List.not_mem_nil, or_false] at hd
    rcases hd with rfl | rfl <;> decide
  by_cases h8 : c.toNat = 8
  case pos =>
    rw [show escapeRune c = ['\\', 'b'] by
          unfold escapeRune
          rw [if_neg hq, if_neg hp, if_neg h7, if_pos h8]] at hd
    simp only [List.mem_cons, List.not_mem_nil, or_false] at hd
    rcases hd with rfl | rfl <;> decide
  by_cases h12 : c.toNat = 12
  case pos =>
    rw [show escapeRune c = ['\\', 'f'] by
          unfold escapeRune
          rw [if_neg hq, if_neg hp, if_neg h7, if_neg h8, if_pos h12]] at hd
    simp only [List.mem_cons, List.not_mem_nil, or_false] at hd
    rcases hd with rfl | rfl <;> decide
  by_cases h10 : c.toNat = 10
  case pos =>
    rw [show escapeRune c = ['\\', 'n'] by
          unfold escapeRune
          rw [if_neg hq, if_neg hp, if_neg h7, if_neg h8, if_neg h12,
              if_pos h10]] at hd
    simp only [List.mem_cons, List.not_mem_nil, or_false] at hd
    rcases hd with rfl | rfl <;> decide
  by_cases h13 : c.toNat = 13
  case pos =>
    rw [show escapeRune c = ['\\', 'r'] by
          unfold escapeRune
          rw [if_neg hq, if_neg hp, if_neg h7, if_neg h8, if_neg h12,
              if_neg h10, if_pos h13]] at hd
    simp only [List.mem_cons, List.not_mem_nil, or_false] at hd
    rcases hd with rfl | rfl <;> decide
  by_cases h9 : c.toNat = 9
  case pos =>
    rw [show escapeRune c = ['\\', 't'] by
          unfold escapeRune
          rw [if_neg hq, if_neg hp, if_neg h7, if_neg h8, if_neg h12,
              if_neg h10, if_neg h13, if_pos h9]] at hd
    simp only [List.mem_cons, List.not_mem_nil, or_false] at hd
    rcases hd with rfl | rfl <;> decide
  by_cases h11 : c.toNat = 11
  case pos =>
    rw [show escapeRune c = ['\\', 'v'] by
          unfold escapeRune
          rw [if_neg hq, if_neg hp, if_neg h7, if_neg h8, if_neg h12,
              if_neg h10, if_neg h13, if_neg h9, if_pos h11]] at hd
    simp only [List.mem_cons, List.not_mem_nil, or_false] at hd
    rcases hd with rfl | rfl <;> decide
  by_cases hx : c.toNat < 32 ∨ c.toNat = 127
  case pos =>
    rw [show escapeRune c =
          ['\\', 'x', lowerHexDigit (c.toNat / 16),
           lowerHexDigit (c.toNat % 16)] by
          unfold escapeRune
          rw [if_neg hq, if_neg hp, if_neg h7, if_neg h8, if_neg h12,
              if_neg h10, if_neg h13, if_neg h9, if_neg h11, if_pos hx]] at hd
    simp only [List.mem_cons, List.not_mem_nil, or_false] at hd
    rcases hd with rfl | rfl | rfl | rfl
    · decide
    · decide
    · exact lowerHexDigit_not_control _ (by omega)
    · exact lowerHexDigit_not_control _ (Nat.mod_lt _ (by omega))
  by_cases hu : c.toNat < 65536
  case pos =>
    rw [show escapeRune c =
          ['\\', 'u',
           lowerHexDigit (c.toNat / 4096 % 16),
           lowerHexDigit (c.toNat / 256 % 16),
           lowerHexDigit (c.toNat / 16 % 16), lowerHexDigit (c.toNat % 16)] by
          unfold escapeRune
          rw [if_neg hq, if_neg hp, if_neg h7, if_neg h8, if_neg h12,
              if_neg h10, if_neg h13, if_neg h9, if_neg h11, if_neg hx,
              if_pos hu]] at hd
    simp only [List.mem_cons, List.not_mem_nil, or_false] at hd
    rcases hd with rfl | rfl | rfl | rfl | rfl | rfl
    · decide
    · decide
    all_goals exact lowerHexDigit_not_control _ (Nat.mod_lt _ (by omega))
  case neg =>
    rw [show escapeRune c =
          ['\\', 'U',
           lowerHexDigit (c.toNat / 268435456 % 16),
           lowerHexDigit (c.toNat / 16777216 % 16),
           lowerHexDigit (c.toNat / 1048576 % 16),
           lowerHexDigit (c.toNat / 65536 % 16),
           lowerHexDigit (c.toNat / 4096 % 16),
           lowerHexDigit (c.toNat / 256 % 16),
           lowerHexDigit (c.toNat / 16 % 16), lowerHexDigit (c.toNat % 16)] by
          unfold escapeRune
          rw [if_neg hq, if_neg hp, if_neg h7, if_neg h8, if_neg h12,
              if_neg h10, if_neg h13, if_neg h9, if_neg h11, if_neg hx,
              if_neg hu]] at hd
    simp only [List.mem_cons, List.not_mem_nil, or_false] at hd
    rcases hd with rfl | rfl | rfl | rfl | rfl | rfl | rfl | rfl | rfl | rfl
    · decide
    · decide
    all_goals exact lowerHexDigit_not_control _ (Nat.mod_lt _ (by omega))

/-- No character of a quoted form is a control character. -/
theorem goQuote_not_control (s : String) :
    ∀ d ∈ (goQuote s).data, ¬ isGoControl d := by
  intro d hd
  have hdata : (goQuote s).data =
      '"' :: ((s.data.map escapeRune).flatten ++ ['"']) := rfl
  rw [hdata] at hd
  rcases List.mem_cons.mp hd with rfl | hd
  · decide
  rcases List.mem_append.mp hd with hd | hd
  · obtain ⟨l, hl, hdl⟩ := List.mem_flatten.mp hd
    obtain ⟨c, _, rfl⟩ := List.mem_map.mp hl
    exact escapeRune_not_control c d hdl
  · have hdq : d = '"' := by simpa using hd
    subst hdq
    decide

/-! ## Claims -/

/-- C1: for every defined non-Nil Category and Code constant, name lookup
returns a nonempty lowercase string (also at the maximum-valued defined
constants), but for an out-of-range value the lookup does NOT return a
fallback name: it indexes the fixed-size array out of bounds, modelled by
`none`.  The last two conjuncts exhibit the failing inputs 5 and 24. -/
theorem claim1_name_lookup :
    (([ErrorCategoryLimit, ErrorCategoryGrammar, ErrorCategorySemantic,
       ErrorCategoryRuntime].all fun c =>
        match ErrorCategory.Error c with
        | some s => (s != "") && s.data.all (fun d => d.isLower || d == ' ')
        | none => false) = true) ∧
    (((List.range errorCodeConstBlock.length).all fun c =>
        (c == 0) ||
        match ErrorCode.Error c with
        | some s => (s != "") && s.data.all (fun d => d.isLower || d == ' ')
        | none => false) = true) ∧
    ErrorCategory.Error ErrorCategoryRuntime = some "runtime" ∧
    ErrorCode.Error ErrorCodeDividedByZero = some "divide by zero" ∧
    ErrorCategory.Error (ErrorCategoryRuntime + 1) = none ∧
    ErrorCode.Error (ErrorCodeDividedByZero + 1) = none := by
  decide

/-- C2: rendering never faults: it is a total function of the record, and
it returns a nonempty string for every field assignment, including Nil and
out-of-range Category/Code.  The second conjunct evaluates the render at
out-of-range Category 5 / Code 24: the name lookups panic, fmt recovers
the panics, and the render still returns a string. -/
theorem claim2_render_total :
    (∀ e : Error, Error.Error e ≠ "") ∧
    Error.Error ⟨0, 0, ErrorCategoryRuntime + 1, ErrorCodeDividedByZero + 1,
        "", "", ""⟩ =
      "unknown location, category 5 (%!s(PANIC=Error method: runtime error: index out of range [5] with length 5)), code 24 (%!s(PANIC=Error method: runtime error: index out of range [24] with length 24))" := by
  constructor
  · intro e h
    have hlen := congrArg String.length h
    rw [error_render_decomp] at hlen
    simp only [String.length_append] at hlen
    have hloc : 0 < (locPart e).length := by
      unfold locPart
      split_ifs <;> (try simp only [String.length_append]) <;>
        first
          | decide
          | (have h7 : 0 < "offset ".length := by decide
             omega)
    have hnil : String.length "" = 0 := by decide
    rw [hnil] at hlen
    omega
  · decide

theorem claim2_witness :
    Error.Error ⟨0, 0, ErrorCategoryNil, ErrorCodeNil, "", "", ""⟩ ≠ "" :=
  claim2_render_total.1 ⟨0, 0, ErrorCategoryNil, ErrorCodeNil, "", "", ""⟩

/-- C3: the numeric values the Go iota numbering assigns to the named
constants match the frozen reference table: categories 0..4 and codes
numbered consecutively 0..23. -/
theorem claim3_constant_values :
    ErrorCategoryNil = 0 ∧ ErrorCategoryLimit = 1 ∧ ErrorCategoryGrammar = 2 ∧
    ErrorCategorySemantic = 3 ∧ ErrorCategoryRuntime = 4 ∧
    ErrorCodeNil = 0 ∧ ErrorCodeDepthLimitReached = 1 ∧ ErrorCodeParser = 2 ∧
    ErrorCodeInvalidIntegerSyntax = 3 ∧ ErrorCodeInvalidNumberSyntax = 4 ∧
    ErrorCodeIntegerOutOfRange = 5 ∧ ErrorCodeNumberOutOfRange = 6 ∧
    ErrorCodeFractionalPartTooLong = 7 ∧ ErrorCodeEscapeSequenceTooShort = 8 ∧
    ErrorCodeInvalidUnicodeCodePoint = 9 ∧ ErrorCodeUnknownEscapeSequence = 10 ∧
    ErrorCodeInvalidBytesSize = 11 ∧ ErrorCodeInvalidIntSize = 12 ∧
    ErrorCodeInvalidUintSize = 13 ∧ ErrorCodeInvalidFixedSize = 14 ∧
    ErrorCodeInvalidUfixedSize = 15 ∧ ErrorCodeInvalidFixedFractionalDigits = 16 ∧
    ErrorCodeInvalidUfixedFractionalDigits = 17 ∧ ErrorCodeInvalidDataType = 18 ∧
    ErrorCodeOverflow = 19 ∧ ErrorCodeUnderflow = 20 ∧
    ErrorCodeIndexOutOfRange = 21 ∧ ErrorCodeInvalidCastType = 22 ∧
    ErrorCodeDividedByZero = 23 := by
  decide

/-- C4: every rendering begins with the location clause: `offset
<Position>` (with `, length <Length>` exactly when Length>0) when
Position>0 or Length>0, and `unknown location` otherwise. -/
theorem claim4_location_clause :
    ∀ e : Error, ∃ rest : String,
      Error.Error e = specLocationClause e ++ rest := by
  intro e
  refine ⟨midPart e ++ (tokPart e ++ (hintPart e ++ msgPart e)), ?_⟩
  rw [error_render_decomp]
  rfl

/-- C5: the empty list renders to the empty string, and a two-element list
renders as the first rendering, a line break, then the second rendering. -/
theorem claim5_list_render_join :
    ErrorList.Error [] = "" ∧
    ∀ a b : Error,
      ErrorList.Error [a, b] = Error.Error a ++ "\n" ++ Error.Error b := by
  refine ⟨rfl, fun a b => ?_⟩
  rw [errorList_cons]
  simp only [List.foldl_cons, List.foldl_nil, sepStep]

/-- C6: the record with Position 10, Length 0, Category Grammar, Code
Parser and empty debug fields renders exactly as stated. -/
theorem claim6_render_concrete :
    Error.Error ⟨10, 0, ErrorCategoryGrammar, ErrorCodeParser, "", "", ""⟩ =
      "offset 10, category 2 (grammar), code 2 (parser error)" := by
  decide

/-- C7: the token, hint, and message clauses appear in that order, each
exactly when its field is nonempty; the token and hint are quoted by
goQuote, the message is appended unquoted; and the quoting is unambiguous
(it has a decoder) and escapes every control character and embedded quote
mark (no character of the quoted form is a control character, and the
quoted form decodes uniquely back to the original). -/
theorem claim7_optional_clauses_quoting :
    (∀ e : Error,
        Error.Error e =
          locPart e ++ (midPart e ++ (tokPart e ++ (hintPart e ++ msgPart e))) ∧
        tokPart e = (if e.Token = "" then "" else ", token " ++ goQuote e.Token) ∧
        hintPart e = (if e.Pfx = "" then "" else ", hint " ++ goQuote e.Pfx) ∧
        msgPart e =
          (if e.Message = "" then "" else ", message: " ++ e.Message)) ∧
    (∀ s : String, goUnquote (goQuote s) = some s) ∧
    (∀ s : String, ∀ d ∈ (goQuote s).data, ¬ isGoControl d) := by
  refine ⟨fun e => ⟨error_render_decomp e, ?_, ?_, ?_⟩,
    goQuote_roundtrip, goQuote_not_control⟩
  · rcases eq_or_ne e.Token "" with h | h <;> simp [tokPart, h]
  · rcases eq_or_ne e.Pfx "" with h | h <;> simp [hintPart, h]
  · rcases eq_or_ne e.Message "" with h | h <;> simp [msgPart, h]

theorem claim7_witness : ¬ isGoControl '"' :=
  claim7_optional_clauses_quoting.2.2 "a" '"' (by decide)

/-- C8: the all-zero record renders with the unknown-location clause, the
numeric category and code 0, and the looked-up Nil names, which are the
empty string. -/
theorem claim8_render_zero_value :
    Error.Error ⟨0, 0, ErrorCategoryNil, ErrorCodeNil, "", "", ""⟩ =
      "unknown location, category 0 (), code 0 ()" := by
  decide

/-- C9: rendering is deterministic and depends only on the field values
of the record (and, for lists, on the element values). -/
theorem claim9_render_deterministic :
    (∀ e₁ e₂ : Error,
        e₁.Position = e₂.Position → e₁.Length = e₂.Length →
        e₁.Category = e₂.Category → e₁.Code = e₂.Code →
        e₁.Token = e₂.Token → e₁.Pfx = e₂.Pfx → e₁.Message = e₂.Message →
        Error.Error e₁ = Error.Error e₂) ∧
    (∀ l : List Error, ErrorList.Error l = ErrorList.Error l) := by
  constructor
  · intro e₁ e₂ h1 h2 h3 h4 h5 h6 h7
    obtain ⟨p₁, n₁, c₁, d₁, t₁, f₁, m₁⟩ := e₁
    obtain ⟨p₂, n₂, c₂, d₂, t₂, f₂, m₂⟩ := e₂
    dsimp only at h1 h2 h3 h4 h5 h6 h7
    subst h1; subst h2; subst h3; subst h4; subst h5; subst h6; subst h7
    rfl
  · intro l
    rfl

theorem claim9_witness :
    Error.Error ⟨1, 2, 3, 4, "t", "p", "m"⟩ =
      Error.Error ⟨1, 2, 3, 4, "t", "p", "m"⟩ :=
  claim9_render_deterministic.1 _ _ rfl rfl rfl rfl rfl rfl rfl

/-- C10: list rendering distributes over concatenation of nonempty lists,
with a single line break at the seam. -/
theorem claim10_list_render_append :
    ∀ l₁ l₂ : List Error, l₁ ≠ [] → l₂ ≠ [] →
      ErrorList.Error (l₁ ++ l₂) =
        ErrorList.Error l₁ ++ "\n" ++ ErrorList.Error l₂ := by
  intro l₁ l₂ h1 h2
  obtain ⟨x, xs, rfl⟩ := List.exists_cons_of_ne_nil h1
  obtain ⟨y, ys, rfl⟩ := List.exists_cons_of_ne_nil h2
  rw [List.cons_append, errorList_cons x (xs ++ y :: ys), List.foldl_append,
      errorList_cons x xs, errorList_cons y ys, List.foldl_cons]
  rw [show sepStep (List.foldl sepStep (Error.Error x) xs) y =
        (List.foldl sepStep (Error.Error x) xs ++ "\n") ++ Error.Error y from rfl,
      foldl_sepStep_prefix]

theorem claim10_witness :
    ErrorList.Error ([⟨0, 0, 0, 0, "", "", ""⟩] ++ [⟨1, 0, 0, 0, "", "", ""⟩]) =
      ErrorList.Error [⟨0, 0, 0, 0, "", "", ""⟩] ++ "\n" ++
        ErrorList.Error [⟨1, 0, 0, 0, "", "", ""⟩] :=
  claim10_list_render_append _ _ (by decide) (by decide)

end DexonErrors
